import Mathlib

set_option linter.unusedVariables false

/-!
Shallow embedding of the two example programs of the repository
(`human_in_the_loop/code_assistant.py` and
`human_in_the_loop/reimbursement_automation.py`) together with a model of
the workflow engine they drive.  The engine itself (the `bridgic` package)
is not part of the repository, so every definition describing engine
behaviour carries a doc comment starting with `Modelled from the spec:`;
all other definitions are translated directly from the Python source.
-/

namespace Bridgic

/-! ## Data model (reimbursement_automation.py, lines 20-33) -/

/-- Model of `datetime.datetime` values as they appear in the source: a plain
calendar tuple.  Only their identity matters to the claims. -/
structure PyDateTime where
  year : Nat
  month : Nat
  day : Nat
  hour : Nat
  minute : Nat
  second : Nat
deriving Repr, DecidableEq

/-- The `ReimbursementRecord` pydantic model (lines 20-28).  The Python
`float` amount is modelled as a rational number: every finite double is a
rational and both the literal bounds involved (1024.00, 2500) are exactly
representable, so `>` on doubles coincides with `>` on ℚ here. -/
structure ReimbursementRecord where
  request_id : Int
  employee_id : Int
  employee_name : String
  reimbursement_month : String
  reimbursement_amount : ℚ
  description : String
  created_at : PyDateTime
  updated_at : PyDateTime
deriving Repr, DecidableEq

/-- The `AuditResult` pydantic model (lines 30-33). -/
structure AuditResult where
  request_id : Int
  passed : Bool
  audit_reason : String
deriving Repr, DecidableEq

/-- The `Event` type from `bridgic.core.automa.interaction`: a named payload.  The
payload type differs between the two examples, so it is a parameter. -/
structure Event (α : Type) where
  event_type : String
  data : α
deriving Repr, DecidableEq

/-- The `Feedback` type: a response payload.  In both examples the data is a
string. -/
structure Feedback where
  data : String
deriving Repr, DecidableEq

/-- An `InteractionFeedback`: a feedback keyed by the id of the pending
interaction it resolves. -/
structure InteractionFeedback where
  interaction_id : Nat
  data : String
deriving Repr, DecidableEq

/-! ## Workers of ReimbursementWorkflow (reimbursement_automation.py) -/

/-- Method `load_record_from_database` (lines 97-108): simulated database query,
returns the same record for every `request_id`. -/
def load_record_from_database (request_id : Int) : ReimbursementRecord :=
  { request_id := request_id
    employee_id := 888888
    employee_name := "John Doe"
    reimbursement_month := "2025-10"
    reimbursement_amount := 1024
    description := "Hotel expenses for a business trip"
    created_at := ⟨2025, 10, 11, 10, 0, 0⟩
    updated_at := ⟨2025, 10, 11, 10, 0, 0⟩ }

/-- Worker `audit_by_rules` (lines 44-71): fails the audit exactly when
the amount exceeds 2500.  (The Python reason string is a plain literal,
not an f-string, so the braces are literal text.) -/
def audit_by_rules (record : ReimbursementRecord) : AuditResult :=
  if record.reimbursement_amount > 2500 then
    { request_id := record.request_id
      passed := false
      audit_reason := "The reimbursement amount \x7brecord.reimbursement_amount\x7d exceeds the limit of 2500." }
  else
    { request_id := record.request_id
      passed := true
      audit_reason := "The reimbursement request passed the audit." }

/-- The dictionary payload of the `request_approval` event (lines 81-87). -/
structure PaymentData where
  reimbursement_record : ReimbursementRecord
  audit_result : AuditResult
deriving Repr, DecidableEq

/-- A worker body that may stop at a human-interaction point: either it
finishes with a value, or it raises an event and resumes with the string
data of the feedback eventually supplied. -/
inductive WorkerAction (ε α : Type) where
  | done : α → WorkerAction ε α
  | ask : ε → (String → α) → WorkerAction ε α

/-- What worker `execute_payment` (lines 73-95) produces: its boolean
return value, and whether `lanuch_payment_transaction` was called. -/
structure PaymentResult where
  returned : Bool
  launched : Bool
deriving Repr, DecidableEq

/-- Worker `execute_payment` (lines 73-95), split at its
`interact_with_human` call.  If the audit failed it returns `False`
without interacting; otherwise it raises the `request_approval` event and,
once feedback arrives, launches the payment and returns `True` exactly
when the feedback data is the string `"yes"`. -/
def execute_payment (result : AuditResult) (record : ReimbursementRecord) :
    WorkerAction (Event PaymentData) PaymentResult :=
  if !result.passed then
    WorkerAction.done { returned := false, launched := false }
  else
    WorkerAction.ask
      { event_type := "request_approval"
        data := { reimbursement_record := record, audit_result := result } }
      (fun d =>
        if d = "yes" then { returned := true, launched := true }
        else { returned := false, launched := false })

/-- The behaviour of `execute_payment` as a function of the feedback data
it ends up receiving (identity on the `done` branch, the continuation on
the `ask` branch). -/
def payment_response (result : AuditResult) (record : ReimbursementRecord)
    (d : String) : PaymentResult :=
  match execute_payment result record with
  | WorkerAction.done r => r
  | WorkerAction.ask _ k => k d

/-! ## Snapshot persistence helpers (reimbursement_automation.py 153-183) -/

/-- The `Snapshot` type from `bridgic.core.automa`: an opaque byte payload plus a
version string. -/
structure Snapshot where
  serialized_bytes : List Nat
  serialization_version : String
deriving Repr, DecidableEq

/-- The pair of files produced by `save_snapshot_to_database`. -/
structure DbContext where
  bytes_file : List Nat
  version_file : List Char
deriving Repr, DecidableEq

/-- One-pass universal-newline scan; the flag records whether the
previous character was a carriage return (so that the newline of a
`"\r\n"` pair is not emitted twice). -/
def univAux : Bool → List Char → List Char
  | _, [] => []
  | prevCR, c :: rest =>
    if c = '\r' then '\n' :: univAux true rest
    else if c = '\n' then
      if prevCR then univAux false rest else '\n' :: univAux false rest
    else c :: univAux false rest

/-- Universal-newline translation performed by a Python text-mode read
(`open(..., "r")` with the default `newline=None`): every `"\r\n"` pair
and every lone `"\r"` becomes `"\n"`. -/
def univNewlines (l : List Char) : List Char :=
  univAux false l

/-- Function `save_snapshot_to_database` (lines 153-167): the bytes are written in
binary mode (identity); the version string is written in text mode, which
on POSIX (`os.linesep = "\n"`, the platform these examples target)
stores the characters unchanged. -/
def save_snapshot_to_database (snapshot : Snapshot) : DbContext :=
  { bytes_file := snapshot.serialized_bytes
    version_file := snapshot.serialization_version.toList }

/-- Function `load_snapshot_from_database` (lines 169-183): the bytes are read in
binary mode (identity); the version file is read in text mode, which
applies universal-newline translation to its contents. -/
def load_snapshot_from_database (db_context : DbContext) : Snapshot :=
  { serialized_bytes := db_context.bytes_file
    serialization_version := ⟨univNewlines db_context.version_file⟩ }

/-! ## Workers of CodeAssistant (code_assistant.py) -/

/-- Python `str.strip(chars)`: remove leading and trailing characters
that belong to the character set of `chars`. -/
def pyStrip (chars : List Char) (s : List Char) : List Char :=
  ((s.dropWhile (fun c => c ∈ chars)).reverse.dropWhile (fun c => c ∈ chars)).reverse

/-- What worker `output_result` (lines 58-66) does, observably: whether
`exec` ran, and the code string both branches use (the generated code
after `.strip("```python").strip("```")`). -/
structure OutputResult where
  executed : Bool
  final_code : List Char
deriving Repr, DecidableEq

/-- Worker `output_result` (lines 58-66): strips the code fence
characters, then executes the code exactly when the feedback is
`"yes"`, otherwise only prints it. -/
def output_result (feedback : String) (code : String) : OutputResult :=
  let code2 := pyStrip "```".toList (pyStrip "```python".toList code.toList)
  if feedback = "yes" then { executed := true, final_code := code2 }
  else { executed := false, final_code := code2 }

/-- The event raised by worker `ask_to_run_code` (line 54). -/
def ask_to_run_code_event (code : String) : Event String :=
  { event_type := "can_run_code", data := code }

/-- What worker `ask_to_run_code` (lines 52-56) returns once the awaited
feedback arrives: `feedback.data`, unmodified. -/
def ask_to_run_code_return (feedback : Feedback) : String :=
  feedback.data

/-- Handler `can_run_code_handler` (lines 69-77) as the list of feedbacks it
sends, given the event and the console input: exactly one send on every
path — the input itself when it is `"yes"` or `"no"`, the literal `"no"`
otherwise. -/
def can_run_code_handler (event : Event String) (console_input : String) :
    List Feedback :=
  if console_input ∈ ["yes", "no"] then [{ data := console_input }]
  else [{ data := "no" }]

/-! ## Engine model

The `bridgic` engine is not part of this repository; the definitions below
model the parts the examples rely on, from the specification's words. -/

/-- Modelled from the spec: the ArgumentResolver's explicit source binding
(`From("X")`) — look worker X's output up in the map of completed outputs;
`none` is the `ResolutionError` case (X has not completed). -/
def resolve_from {α : Type} (completed : List (String × α)) (source : String) :
    Option α :=
  (completed.find? (fun p => p.1 == source)).map Prod.snd

/-- Modelled from the spec: the InteractionManager's synchronous dispatch
(`request_feedback_async` with a registered handler) — invoke the handler
on the event and hand the one Feedback it sends back to the worker,
unmodified. -/
def request_feedback_sync (handler : Event String → List Feedback)
    (event : Event String) : Option Feedback :=
  (handler event).head?

/-- Modelled from the spec: worker `ask_to_run_code` run through the
synchronous interaction path — raise the `can_run_code` event, let the
registered `can_run_code_handler` answer (reading `console_input` from the
console), and return the delivered feedback's data. -/
def run_ask_to_run_code (code : String) (console_input : String) :
    Option String :=
  (request_feedback_sync (fun e => can_run_code_handler e console_input)
    (ask_to_run_code_event code)).map ask_to_run_code_return

/-- The trace of one CodeAssistant run: the completed-outputs map and the
exact argument values the scheduler passed to `output_result`. -/
structure CARun where
  env : List (String × String)
  output_result_feedback_arg : Option String
  output_result_code_arg : Option String
  result : Option OutputResult
deriving Repr, DecidableEq

/-- Modelled from the spec: the Scheduler driving the linear CodeAssistant
graph `generate_code → ask_to_run_code → output_result` with the
`can_run_code` handler registered.  The LLM is an external collaborator,
so `generated` (what `generate_code` returned) and `console_input` (what
`input()` read inside the handler) are parameters.  Each worker's
parameters are resolved per the spec: `ask_to_run_code`'s `code` and
`output_result`'s `feedback` implicitly from their single dependency,
`output_result`'s `code` by the explicit `From("generate_code")`
binding. -/
def arunCodeAssistant (generated : String) (console_input : String) : Option CARun :=
  let env1 : List (String × String) := [("generate_code", generated)]
  match resolve_from env1 "generate_code" with
  | none => none
  | some code =>
    match request_feedback_sync
        (fun e => can_run_code_handler e console_input)
        (ask_to_run_code_event code) with
    | none => none
    | some fb =>
      let env2 := env1 ++ [("ask_to_run_code", ask_to_run_code_return fb)]
      match resolve_from env2 "ask_to_run_code", resolve_from env2 "generate_code" with
      | some feedback, some code2 =>
        some { env := env2
               output_result_feedback_arg := some feedback
               output_result_code_arg := some code2
               result := some (output_result feedback code2) }
      | _, _ => none

/-! ### ReimbursementWorkflow run model -/

/-- Completed-output values of the reimbursement graph (the three workers
return a record, an audit result and a boolean respectively). -/
inductive RVal where
  | record : ReimbursementRecord → RVal
  | audit : AuditResult → RVal
  | flag : Bool → RVal
deriving Repr, DecidableEq

/-- An `InteractionRecord`: a unique id plus the originating event. -/
structure MInteraction where
  interaction_id : Nat
  event : Event PaymentData
deriving Repr, DecidableEq

/-- Modelled from the spec: the ExecutionState a Snapshot reconstructs —
completed outputs plus the unresolved interaction records.  The
SnapshotCodec's byte encoding is opaque to callers, so the snapshot is
modelled as the state it encodes. -/
structure MSnapshot where
  completed : List (String × RVal)
  pending : List MInteraction
deriving Repr, DecidableEq

/-- Modelled from the spec: outcome of `arun` — completion with the final
outputs, the `InteractionException` suspend signal carrying the pending
interaction records and the snapshot, or failure. -/
inductive ROutcome where
  | completed : List (String × RVal) → ROutcome
  | suspended : List MInteraction → MSnapshot → ROutcome
  | failed : ROutcome
deriving Repr, DecidableEq

/-- The trace of one fresh ReimbursementWorkflow run: the outcome plus the
exact argument values the scheduler passed to `execute_payment`. -/
structure RRun where
  outcome : ROutcome
  execute_payment_result_arg : Option AuditResult
  execute_payment_record_arg : Option ReimbursementRecord
deriving Repr, DecidableEq

/-- Modelled from the spec: the Scheduler driving the linear
ReimbursementWorkflow graph `load_record → audit_by_rules →
execute_payment` with no handler registered for `request_approval`:
`execute_payment`'s `interact_with_human` suspends the run, producing the
`InteractionException` outcome with one pending interaction and the
snapshot of the state.  `execute_payment`'s `result` parameter resolves
implicitly from its single dependency `audit_by_rules`, its `record`
parameter by the explicit `From("load_record")` binding. -/
def arunReimbursement (request_id : Int) : RRun :=
  let record := load_record_from_database request_id
  let env1 : List (String × RVal) := [("load_record", RVal.record record)]
  match resolve_from env1 "load_record" with
  | some (RVal.record r) =>
    let result := audit_by_rules r
    let env2 := env1 ++ [("audit_by_rules", RVal.audit result)]
    match resolve_from env2 "audit_by_rules", resolve_from env2 "load_record" with
    | some (RVal.audit res), some (RVal.record rcd) =>
      match execute_payment res rcd with
      | WorkerAction.done pr =>
        { outcome := ROutcome.completed (env2 ++ [("execute_payment", RVal.flag pr.returned)])
          execute_payment_result_arg := some res
          execute_payment_record_arg := some rcd }
      | WorkerAction.ask ev _ =>
        let interaction : MInteraction := { interaction_id := 0, event := ev }
        { outcome := ROutcome.suspended [interaction] { completed := env2, pending := [interaction] }
          execute_payment_result_arg := some res
          execute_payment_record_arg := some rcd }
    | _, _ => { outcome := ROutcome.failed
                execute_payment_result_arg := none
                execute_payment_record_arg := none }
  | _ => { outcome := ROutcome.failed
           execute_payment_result_arg := none
           execute_payment_record_arg := none }

/-- Modelled from the spec: `load_from_snapshot` reconstructs the
ExecutionState carried by the snapshot. -/
def load_from_snapshot (snapshot : MSnapshot) : MSnapshot :=
  snapshot

/-- Modelled from the spec: `arun(interaction_feedback=...)` on a workflow
reconstructed from a snapshot — resolve the pending interaction whose id
matches the feedback's key, hand the feedback's literal data to the
suspended worker (`execute_payment`'s continuation), and re-enter the
readiness loop.  Returns the data the suspended worker observed together
with the outcome; `none` when the feedback matches no pending
interaction. -/
def arunResume (snapshot : MSnapshot) (feedback : InteractionFeedback) :
    Option (String × ROutcome) :=
  match snapshot.pending with
  | [interaction] =>
    if feedback.interaction_id = interaction.interaction_id then
      match resolve_from snapshot.completed "audit_by_rules",
            resolve_from snapshot.completed "load_record" with
      | some (RVal.audit res), some (RVal.record rcd) =>
        match execute_payment res rcd with
        | WorkerAction.ask _ k =>
          some (feedback.data,
            ROutcome.completed
              (snapshot.completed ++ [("execute_payment", RVal.flag (k feedback.data).returned)]))
        | WorkerAction.done pr =>
          some (feedback.data,
            ROutcome.completed
              (snapshot.completed ++ [("execute_payment", RVal.flag pr.returned)]))
      | _, _ => some (feedback.data, ROutcome.failed)
    else none
  | _ => none

/-! ### Scheduler dispatch discipline (for the ordering claim) -/

/-- A scheduler-visible event: a worker starting or completing. -/
inductive Ev where
  | start : String → Ev
  | complete : String → Ev
deriving Repr, DecidableEq

/-- The scheduler's bookkeeping: which workers have been dispatched and
which have completed. -/
structure SchedState where
  started : List String
  completed : List String
deriving Repr, DecidableEq

/-- Modelled from the spec: one scheduler transition — a worker may be
dispatched only when every one of its declared dependencies has already
completed, and never twice; a completion is recorded for a dispatched,
not-yet-completed worker. -/
inductive SchedStep (deps : String → List String) :
    SchedState → Ev → SchedState → Prop where
  | start (s : SchedState) (w : String)
      (h1 : w ∉ s.started)
      (h2 : ∀ d ∈ deps w, d ∈ s.completed) :
      SchedStep deps s (Ev.start w) ⟨w :: s.started, s.completed⟩
  | complete (s : SchedState) (w : String)
      (h1 : w ∈ s.started)
      (h2 : w ∉ s.completed) :
      SchedStep deps s (Ev.complete w) ⟨s.started, w :: s.completed⟩

/-- A sequence of scheduler transitions with its event trace. -/
inductive SchedTrace (deps : String → List String) :
    SchedState → List Ev → SchedState → Prop where
  | nil (s : SchedState) : SchedTrace deps s [] s
  | cons (s s' s'' : SchedState) (e : Ev) (tr : List Ev)
      (hstep : SchedStep deps s e s')
      (htr : SchedTrace deps s' tr s'') :
      SchedTrace deps s (e :: tr) s''

/-- The dependency declarations of the `CodeAssistant` graph, read off the
`@worker` decorators (code_assistant.py lines 40, 52, 58). -/
def codeAssistantDeps : String → List String
  | "ask_to_run_code" => ["generate_code"]
  | "output_result" => ["ask_to_run_code"]
  | _ => []

/-! ### Generic fuel-driven scheduler (for the termination claim) -/

/-- A worker declaration: a name and its declared dependency names. -/
structure WorkerNode where
  name : String
  deps : List String
deriving Repr, DecidableEq

/-- How a dispatched worker ends: normal completion, a domain error, or an
interaction request with no synchronous handler. -/
inductive WOutcome where
  | ok
  | err
  | interact
deriving Repr, DecidableEq

/-- Terminal result of a run, plus the fuel-exhaustion marker that a
terminating scheduler never produces. -/
inductive RunResult where
  | completedR
  | failedR
  | suspendedR
  | outOfFuel
deriving Repr, DecidableEq

/-- A worker not yet completed all of whose dependencies are completed. -/
def readyWorker (completed : List String) (n : WorkerNode) : Bool :=
  !completed.contains n.name && n.deps.all (fun d => completed.contains d)

/-- The first dispatchable worker, if any. -/
def findReady (nodes : List WorkerNode) (completed : List String) :
    Option WorkerNode :=
  nodes.find? (readyWorker completed)

/-- Modelled from the spec: the Scheduler's readiness loop — dispatch a
ready worker, record its output on completion and recompute readiness;
a domain error fails the run, an unhandled interaction request suspends
it; when no worker is ready the run is complete if every worker has an
output (and otherwise cannot proceed, surfacing an error). -/
def schedLoop (behavior : String → WOutcome) (nodes : List WorkerNode) :
    Nat → List String → RunResult
  | fuel, completed =>
    match findReady nodes completed with
    | none =>
      if nodes.all (fun n => completed.contains n.name) then RunResult.completedR
      else RunResult.failedR
    | some n =>
      match fuel with
      | 0 => RunResult.outOfFuel
      | fuel' + 1 =>
        match behavior n.name with
        | WOutcome.ok => schedLoop behavior nodes fuel' (n.name :: completed)
        | WOutcome.err => RunResult.failedR
        | WOutcome.interact => RunResult.suspendedR

/-- Modelled from the spec: `arun` on a WorkflowDefinition — run the
readiness loop from the empty state; one unit of fuel per worker always
suffices. -/
def arunGeneric (behavior : String → WOutcome) (nodes : List WorkerNode) :
    RunResult :=
  schedLoop behavior nodes nodes.length []

/-- The `CodeAssistant` graph as worker declarations. -/
def codeAssistantNodes : List WorkerNode :=
  [{ name := "generate_code", deps := [] },
   { name := "ask_to_run_code", deps := ["generate_code"] },
   { name := "output_result", deps := ["ask_to_run_code"] }]

/-- The `ReimbursementWorkflow` graph as worker declarations
(reimbursement_automation.py lines 36, 44, 73). -/
def reimbursementNodes : List WorkerNode :=
  [{ name := "load_record", deps := [] },
   { name := "audit_by_rules", deps := ["load_record"] },
   { name := "execute_payment", deps := ["audit_by_rules"] }]

/-- The interaction record the suspended ReimbursementWorkflow run
carries: the `request_approval` event raised by `execute_payment`. -/
def reimbursement_interaction (request_id : Int) : MInteraction :=
  ⟨0, { event_type := "request_approval"
        data := { reimbursement_record := load_record_from_database request_id
                  audit_result := audit_by_rules (load_record_from_database request_id) } }⟩

/-- The snapshot taken when the ReimbursementWorkflow run suspends: the
two completed outputs plus the one pending interaction. -/
def reimbursement_snapshot (request_id : Int) : MSnapshot :=
  { completed :=
      [("load_record", RVal.record (load_record_from_database request_id)),
       ("audit_by_rules", RVal.audit (audit_by_rules (load_record_from_database request_id)))]
    pending := [reimbursement_interaction request_id] }

/-- The completed-outputs map of the resumed ReimbursementWorkflow run
after feedback `d` was delivered. -/
def reimbursement_final_env (request_id : Int) (d : String) :
    List (String × RVal) :=
  [("load_record", RVal.record (load_record_from_database request_id)),
   ("audit_by_rules", RVal.audit (audit_by_rules (load_record_from_database request_id))),
   ("execute_payment", RVal.flag (decide (d = "yes")))]

/-! ## Helper lemmas -/

/-- On strings without carriage returns, `univAux false` is the identity. -/
theorem univAux_false_of_not_mem (l : List Char) (h : '\r' ∉ l) :
    univAux false l = l := by
  induction l with
  | nil => rfl
  | cons c rest ih =>
    simp only [List.mem_cons, not_or] at h
    obtain ⟨h1, h2⟩ := h
    have hc : ¬ c = '\r' := fun e => h1 e.symm
    by_cases hn : c = '\n'
    · subst hn
      simp [univAux, ih h2]
    · simp [univAux, hc, hn, ih h2]

/-- Dropping with a weaker predicate after a stronger one is a no-op. -/
theorem dropWhile_imp_eq {α : Type} (p q : α → Bool)
    (himp : ∀ x, p x = true → q x = true) (l : List α) :
    (l.dropWhile q).dropWhile p = l.dropWhile q := by
  induction l with
  | nil => rfl
  | cons a t ih =>
    by_cases hq : q a = true
    · simp [List.dropWhile_cons, hq, ih]
    · have hp : ¬ p a = true := fun hpa => hq (himp a hpa)
      simp [List.dropWhile_cons, hq, hp]

/-- The head of `l.dropWhile p` fails `p`. -/
theorem dropWhile_eq_cons_head {α : Type} (p : α → Bool) :
    ∀ (l : List α) (a : α) (t : List α), l.dropWhile p = a :: t → p a = false := by
  intro l
  induction l with
  | nil => intro a t h; simp at h
  | cons b l ih =>
    intro a t h
    rw [List.dropWhile_cons] at h
    by_cases hb : p b = true
    · rw [if_pos hb] at h
      exact ih a t h
    · rw [if_neg hb] at h
      injection h with h1 h2
      subst h1
      cases hpa : p b
      · rfl
      · exact absurd hpa hb

/-- Stripping both ends with a weaker character set after a stronger one
changes nothing. -/
theorem stripBoth_imp {α : Type} (p q : α → Bool)
    (himp : ∀ x, p x = true → q x = true) (s : List α) :
    ((((((s.dropWhile q).reverse.dropWhile q).reverse).dropWhile p).reverse).dropWhile p).reverse =
    ((s.dropWhile q).reverse.dropWhile q).reverse := by
  have hhead : ∀ a t, ((s.dropWhile q).reverse.dropWhile q).reverse = a :: t → q a = false := by
    intro a t hR
    obtain ⟨r, hr⟩ : (s.dropWhile q).reverse.dropWhile q <:+ (s.dropWhile q).reverse :=
      List.dropWhile_suffix q
    have hA : s.dropWhile q = ((s.dropWhile q).reverse.dropWhile q).reverse ++ r.reverse := by
      have h2 := congrArg List.reverse hr
      simpa [List.reverse_append] using h2.symm
    rw [hR] at hA
    exact dropWhile_eq_cons_head q s a (t ++ r.reverse) (by simpa using hA)
  have h1 : (((s.dropWhile q).reverse.dropWhile q).reverse).dropWhile p =
      ((s.dropWhile q).reverse.dropWhile q).reverse := by
    cases hR : ((s.dropWhile q).reverse.dropWhile q).reverse with
    | nil => simp
    | cons a t =>
      have hqa : q a = false := hhead a t hR
      have hpa : p a = false := by
        cases hpa : p a
        · rfl
        · exact absurd (himp a hpa) (by simp [hqa])
      simp [List.dropWhile_cons, hpa]
  rw [h1, List.reverse_reverse, dropWhile_imp_eq p q himp]

/-- Applying `pyStrip` a second time with a subset character set is a no-op. -/
theorem pyStrip_subset_eq (c1 c2 : List Char) (hsub : ∀ x ∈ c2, x ∈ c1)
    (s : List Char) : pyStrip c2 (pyStrip c1 s) = pyStrip c1 s := by
  unfold pyStrip
  exact stripBoth_imp (fun c => decide (c ∈ c2)) (fun c => decide (c ∈ c1))
    (fun x hx => by simpa using hsub x (by simpa using hx)) s

/-! ## Claims -/

/-- C9: for every `ReimbursementRecord`, `audit_by_rules` keeps the
record's `request_id` and sets `passed` to `False` exactly when the
reimbursement amount exceeds 2500 (so an amount of exactly 2500 passes). -/
theorem audit_by_rules_spec (record : ReimbursementRecord) :
    (audit_by_rules record).request_id = record.request_id ∧
    ((audit_by_rules record).passed = false ↔ record.reimbursement_amount > 2500) := by
  unfold audit_by_rules
  by_cases h : record.reimbursement_amount > 2500
  · simp [h]
  · simp [h]

/-- C3: when the audit result has `passed = True`, `execute_payment`
returns `True` and launches the payment transaction exactly when the
feedback data is the string `"yes"`; every other feedback value makes it
return `False` without calling `lanuch_payment_transaction`. -/
theorem execute_payment_policy (result : AuditResult)
    (record : ReimbursementRecord) (d : String) (h : result.passed = true) :
    ((payment_response result record d).returned = true ↔ d = "yes") ∧
    ((payment_response result record d).launched = true ↔ d = "yes") := by
  unfold payment_response execute_payment
  rw [h]
  by_cases hd : d = "yes"
  · simp [hd]
  · simp [hd]

/-- Witness for C3 at a concrete passing audit result and the feedback
`"no"`. -/
theorem execute_payment_policy_witness :
    (AuditResult.mk 1 true "ok").passed = true ∧
    (((payment_response (AuditResult.mk 1 true "ok")
        (load_record_from_database 1) "no").returned = true ↔ "no" = "yes") ∧
     ((payment_response (AuditResult.mk 1 true "ok")
        (load_record_from_database 1) "no").launched = true ↔ "no" = "yes")) :=
  ⟨rfl, execute_payment_policy (AuditResult.mk 1 true "ok")
    (load_record_from_database 1) "no" rfl⟩

/-- C2 counterexample: the storage round trip is not the identity on every
Snapshot — a version string containing a carriage return comes back with
the carriage return turned into a newline by the text-mode read. -/
theorem snapshot_roundtrip_counterexample :
    load_snapshot_from_database (save_snapshot_to_database
      { serialized_bytes := [0], serialization_version := "1\r0" }) ≠
    { serialized_bytes := [0], serialization_version := "1\r0" } := by
  decide

/-- C2 (amended): the storage round trip preserves `serialized_bytes` for
every Snapshot, and preserves `serialization_version` whenever the version
string contains no carriage-return character. -/
theorem snapshot_roundtrip (s : Snapshot)
    (h : '\r' ∉ s.serialization_version.toList) :
    load_snapshot_from_database (save_snapshot_to_database s) = s := by
  obtain ⟨bs, v⟩ := s
  obtain ⟨data⟩ := v
  unfold save_snapshot_to_database load_snapshot_from_database univNewlines
  congr 1
  exact congrArg String.mk (univAux_false_of_not_mem data h)

/-- Witness for C2's amended round trip at a concrete snapshot. -/
theorem snapshot_roundtrip_witness :
    '\r' ∉ ("1.0" : String).toList ∧
    load_snapshot_from_database (save_snapshot_to_database
      { serialized_bytes := [7], serialization_version := "1.0" }) =
    { serialized_bytes := [7], serialization_version := "1.0" } :=
  ⟨by decide, snapshot_roundtrip
    { serialized_bytes := [7], serialization_version := "1.0" } (by decide)⟩

/-- C10: `output_result` executes the generated code exactly when its
feedback parameter is the string `"yes"`, and in both branches the string
it works with is the generated code with leading and trailing characters
from the character set of `"```python"` stripped. -/
theorem output_result_spec (feedback code : String) :
    ((output_result feedback code).executed = true ↔ feedback = "yes") ∧
    (output_result feedback code).final_code =
      pyStrip "```python".toList code.toList := by
  unfold output_result
  have hstrip := pyStrip_subset_eq "```python".toList "```".toList
    (by decide) code.toList
  constructor
  · by_cases h : feedback = "yes" <;> simp [h]
  · by_cases h : feedback = "yes" <;> simpa [h] using hstrip

/-- C8: the two examples interpret feedback differently —
`can_run_code_handler` sends exactly one Feedback on every console input,
echoing the input when it is exactly `"yes"` or `"no"` and sending `"no"`
otherwise, while `execute_payment` treats any feedback other than `"yes"`
as rejection. -/
theorem feedback_policy_contrast (event : Event String)
    (console_input : String) (result : AuditResult)
    (record : ReimbursementRecord) (d : String) :
    (can_run_code_handler event console_input).length = 1 ∧
    can_run_code_handler event console_input =
      [{ data := if console_input = "yes" ∨ console_input = "no"
                 then console_input else "no" }] ∧
    (result.passed = true →
      ((payment_response result record d).returned = true ↔ d = "yes")) := by
  refine ⟨?_, ?_, ?_⟩
  · unfold can_run_code_handler
    by_cases h : console_input ∈ ["yes", "no"] <;> simp [h]
  · unfold can_run_code_handler
    by_cases h : console_input = "yes" ∨ console_input = "no"
    · simp [h, List.mem_cons]
    · simp only [List.mem_cons, List.not_mem_nil, or_false] at *
      simp [h]
  · intro hp
    unfold payment_response execute_payment
    rw [hp]
    by_cases hd : d = "yes" <;> simp [hd]

/-- Witness for C8 at the console input `"maybe"` and feedback `"no"`. -/
theorem feedback_policy_contrast_witness :
    (can_run_code_handler (ask_to_run_code_event "c") "maybe").length = 1 ∧
    can_run_code_handler (ask_to_run_code_event "c") "maybe" = [{ data := "no" }] ∧
    ((payment_response (AuditResult.mk 2 true "ok")
        (load_record_from_database 2) "maybe").returned = true ↔ "maybe" = "yes") := by
  have h := feedback_policy_contrast (ask_to_run_code_event "c") "maybe"
    (AuditResult.mk 2 true "ok") (load_record_from_database 2) "maybe"
  refine ⟨h.1, ?_, h.2.2 rfl⟩
  have h2 := h.2.1
  simpa using h2

/-- C5: whatever single Feedback `can_run_code_handler` sends back for the
`can_run_code` event, `ask_to_run_code` returns exactly that Feedback's
data, unmodified. -/
theorem sync_feedback_delivery (code console_input d : String)
    (h : can_run_code_handler (ask_to_run_code_event code) console_input =
      [{ data := d }]) :
    run_ask_to_run_code code console_input = some d := by
  unfold run_ask_to_run_code request_feedback_sync
  simp only [h]
  rfl

/-- Witness for C5 at the console input `"yes"`. -/
theorem sync_feedback_delivery_witness :
    can_run_code_handler (ask_to_run_code_event "print(1)") "yes" =
      [{ data := "yes" }] ∧
    run_ask_to_run_code "print(1)" "yes" = some "yes" :=
  ⟨by decide, sync_feedback_delivery "print(1)" "yes" "yes" (by decide)⟩

/-- C4: an explicit `From("X")` binding delivers exactly worker X's output
even across a non-adjacent hop — in every CodeAssistant run
`output_result`'s `code` parameter is the value `generate_code` returned,
and in every ReimbursementWorkflow run `execute_payment`'s `record`
parameter is the value `load_record` returned. -/
theorem from_binding_exact (generated console_input : String)
    (request_id : Int) :
    (∃ r, arunCodeAssistant generated console_input = some r ∧
      r.output_result_code_arg = some generated) ∧
    (arunReimbursement request_id).execute_payment_record_arg =
      some (load_record_from_database request_id) := by
  constructor
  · unfold arunCodeAssistant request_feedback_sync can_run_code_handler
    by_cases h : console_input ∈ ["yes", "no"] <;>
      simp [h, resolve_from, ask_to_run_code_event]
  · have hlt : ¬ (2500 : ℚ) < 1024 := by norm_num
    unfold arunReimbursement
    simp [resolve_from, execute_payment, audit_by_rules,
      load_record_from_database, hlt]

set_option maxRecDepth 4000 in
/-- C1: a fresh ReimbursementWorkflow run suspends (rather than fails)
with exactly one pending interaction record carrying an interaction id and
a snapshot; reconstructing from that snapshot and resuming with an
`InteractionFeedback` keyed by the same id hands the suspended
`execute_payment` exactly the supplied feedback data and drives the run to
completion. -/
theorem suspend_resume_completes (request_id : Int) (d : String) :
    ∃ interaction snapshot,
      (arunReimbursement request_id).outcome =
        ROutcome.suspended [interaction] snapshot ∧
      ∃ env, arunResume (load_from_snapshot snapshot)
          { interaction_id := interaction.interaction_id, data := d } =
        some (d, ROutcome.completed env) := by
  have hlt : ¬ (2500 : ℚ) < 1024 := by norm_num
  refine ⟨reimbursement_interaction request_id,
    reimbursement_snapshot request_id, ?_,
    reimbursement_final_env request_id d, ?_⟩
  · simp [arunReimbursement, reimbursement_interaction, reimbursement_snapshot,
      resolve_from, execute_payment, audit_by_rules,
      load_record_from_database, hlt]
  · by_cases hd : d = "yes" <;>
      simp [arunResume, load_from_snapshot, reimbursement_interaction,
        reimbursement_snapshot, reimbursement_final_env, resolve_from,
        execute_payment, audit_by_rules, load_record_from_database, hlt, hd]

/-- In every scheduler trace, each dependency of a started worker was
either already completed in the initial state or completed at an earlier
position of the trace. -/
theorem schedTrace_start_deps (deps : String → List String) :
    ∀ (s0 s1 : SchedState) (tr : List Ev),
      SchedTrace deps s0 tr s1 →
      ∀ (i : Nat) (w : String), tr[i]? = some (Ev.start w) →
        ∀ d ∈ deps w,
          d ∈ s0.completed ∨ ∃ j < i, tr[j]? = some (Ev.complete d) := by
  intro s0 s1 tr h
  induction h with
  | nil s =>
    intro i w hi
    simp at hi
  | cons s s' s'' e tr hstep htr ih =>
    intro i w hi d hd
    match i with
    | 0 =>
      rw [List.getElem?_cons_zero] at hi
      injection hi with he
      subst he
      cases hstep with
      | start _ h1 h2 => exact Or.inl (h2 d hd)
    | i' + 1 =>
      rw [List.getElem?_cons_succ] at hi
      rcases ih i' w hi d hd with hmem | ⟨j, hj, hjev⟩
      · cases hstep with
        | start _ h1 h2 => exact Or.inl hmem
        | complete w0 h1 h2 =>
          rcases List.mem_cons.mp hmem with rfl | hold
          · exact Or.inr ⟨0, Nat.succ_pos i', by rw [List.getElem?_cons_zero]⟩
          · exact Or.inl hold
      · exact Or.inr ⟨j + 1, Nat.succ_lt_succ hj,
          by rw [List.getElem?_cons_succ]; exact hjev⟩

/-- C6: for the linear `CodeAssistant` chain declared by the `@worker`
decorators, in every scheduler trace `ask_to_run_code` never starts
before `generate_code` completes, and `output_result` never starts before
`ask_to_run_code` completes. -/
theorem linear_chain_ordering (tr : List Ev) (s : SchedState)
    (h : SchedTrace codeAssistantDeps ⟨[], []⟩ tr s) :
    (∀ i : Nat, tr[i]? = some (Ev.start "ask_to_run_code") →
      ∃ j < i, tr[j]? = some (Ev.complete "generate_code")) ∧
    (∀ i : Nat, tr[i]? = some (Ev.start "output_result") →
      ∃ j < i, tr[j]? = some (Ev.complete "ask_to_run_code")) := by
  constructor
  · intro i hi
    rcases schedTrace_start_deps codeAssistantDeps ⟨[], []⟩ s tr h i
        "ask_to_run_code" hi "generate_code" (by decide) with hmem | hex
    · simp at hmem
    · exact hex
  · intro i hi
    rcases schedTrace_start_deps codeAssistantDeps ⟨[], []⟩ s tr h i
        "output_result" hi "ask_to_run_code" (by decide) with hmem | hex
    · simp at hmem
    · exact hex

/-- Witness for C6 on the concrete trace that starts and completes
`generate_code` and then starts `ask_to_run_code`. -/
theorem linear_chain_ordering_witness :
    (∀ i : Nat,
      [Ev.start "generate_code", Ev.complete "generate_code",
        Ev.start "ask_to_run_code"][i]? = some (Ev.start "ask_to_run_code") →
      ∃ j < i,
        [Ev.start "generate_code", Ev.complete "generate_code",
          Ev.start "ask_to_run_code"][j]? = some (Ev.complete "generate_code")) ∧
    (∀ i : Nat,
      [Ev.start "generate_code", Ev.complete "generate_code",
        Ev.start "ask_to_run_code"][i]? = some (Ev.start "output_result") →
      ∃ j < i,
        [Ev.start "generate_code", Ev.complete "generate_code",
          Ev.start "ask_to_run_code"][j]? = some (Ev.complete "ask_to_run_code")) := by
  refine linear_chain_ordering _
    ⟨["ask_to_run_code", "generate_code"], ["generate_code"]⟩ ?_
  refine SchedTrace.cons ⟨[], []⟩ ⟨["generate_code"], []⟩ _ _ _
    (SchedStep.start ⟨[], []⟩ "generate_code" (by decide) (by decide)) ?_
  refine SchedTrace.cons _ ⟨["generate_code"], ["generate_code"]⟩ _ _ _
    (SchedStep.complete ⟨["generate_code"], []⟩ "generate_code"
      (by decide) (by decide)) ?_
  refine SchedTrace.cons _
    ⟨["ask_to_run_code", "generate_code"], ["generate_code"]⟩ _ _ _
    (SchedStep.start ⟨["generate_code"], ["generate_code"]⟩ "ask_to_run_code"
      (by decide) (by decide)) ?_
  exact SchedTrace.nil _

/-- Filtering with a stronger predicate never yields a longer list. -/
theorem length_filter_le_of_imp {α : Type} (p q : α → Bool)
    (himp : ∀ x, p x = true → q x = true) :
    ∀ l : List α, (l.filter p).length ≤ (l.filter q).length := by
  intro l
  induction l with
  | nil => simp
  | cons a t ih =>
    by_cases hp : p a = true
    · have hq := himp a hp
      simp [List.filter_cons, hp, hq]
      omega
    · by_cases hq : q a = true
      · simp [List.filter_cons, hp, hq]
        omega
      · simp [List.filter_cons, hp, hq]
        exact ih

/-- Filtering with a stronger predicate yields a strictly shorter list
when some member separates the two predicates. -/
theorem length_filter_lt_of_witness {α : Type} (p q : α → Bool)
    (himp : ∀ x, p x = true → q x = true) (n : α) :
    ∀ l : List α, n ∈ l → q n = true → p n = false →
      (l.filter p).length < (l.filter q).length := by
  intro l
  induction l with
  | nil =>
    intro h
    simp at h
  | cons a t ih =>
    intro hmem hq hp
    by_cases hqa : q a = true
    · by_cases hpa : p a = true
      · have hne : ¬ a = n := fun e => by
          rw [e, hp] at hpa
          cases hpa
        have hmt : n ∈ t := by
          rcases List.mem_cons.mp hmem with rfl | hold
          · exact absurd rfl hne
          · exact hold
        have := ih hmt hq hp
        simp [List.filter_cons, hpa, hqa]
        omega
      · have := length_filter_le_of_imp p q himp t
        simp [List.filter_cons, hpa, hqa]
        omega
    · have hpa : ¬ p a = true := fun h2 => hqa (himp a h2)
      have hmt : n ∈ t := by
        rcases List.mem_cons.mp hmem with rfl | hold
        · exact absurd hq hqa
        · exact hold
      have := ih hmt hq hp
      simp [List.filter_cons, hpa, hqa]
      omega

/-- The readiness loop never exhausts its fuel once the fuel covers the
number of not-yet-completed workers. -/
theorem schedLoop_ne_outOfFuel (behavior : String → WOutcome)
    (nodes : List WorkerNode) :
    ∀ (fuel : Nat) (completed : List String),
      (nodes.filter (fun n => !completed.contains n.name)).length ≤ fuel →
      schedLoop behavior nodes fuel completed ≠ RunResult.outOfFuel := by
  intro fuel
  induction fuel with
  | zero =>
    intro completed hle
    rw [schedLoop]
    cases hfind : findReady nodes completed with
    | none =>
      show ¬(if (nodes.all fun n => completed.contains n.name) = true
        then RunResult.completedR else RunResult.failedR) = RunResult.outOfFuel
      by_cases hall : (nodes.all fun n => completed.contains n.name) = true
      · rw [if_pos hall]
        decide
      · rw [if_neg hall]
        decide
    | some n =>
      exfalso
      have hmem : n ∈ nodes := List.mem_of_find?_eq_some hfind
      have hready : readyWorker completed n = true := List.find?_some hfind
      have hnc : (!completed.contains n.name) = true :=
        (Bool.and_eq_true _ _ ▸ hready).1
      have : n ∈ nodes.filter (fun n => !completed.contains n.name) :=
        List.mem_filter.mpr ⟨hmem, hnc⟩
      have hpos : 0 < (nodes.filter (fun n => !completed.contains n.name)).length :=
        List.length_pos.mpr (fun he => by rw [he] at this; exact List.not_mem_nil _ this)
      omega
  | succ fuel ih =>
    intro completed hle
    rw [schedLoop]
    cases hfind : findReady nodes completed with
    | none =>
      show ¬(if (nodes.all fun n => completed.contains n.name) = true
        then RunResult.completedR else RunResult.failedR) = RunResult.outOfFuel
      by_cases hall : (nodes.all fun n => completed.contains n.name) = true
      · rw [if_pos hall]
        decide
      · rw [if_neg hall]
        decide
    | some n =>
      have hmem : n ∈ nodes := List.mem_of_find?_eq_some hfind
      have hready : readyWorker completed n = true := List.find?_some hfind
      have hnc : (!completed.contains n.name) = true :=
        (Bool.and_eq_true _ _ ▸ hready).1
      show ¬(match behavior n.name with
        | WOutcome.ok => schedLoop behavior nodes fuel (n.name :: completed)
        | WOutcome.err => RunResult.failedR
        | WOutcome.interact => RunResult.suspendedR) = RunResult.outOfFuel
      cases hb : behavior n.name with
      | ok =>
        show ¬ schedLoop behavior nodes fuel (n.name :: completed) = RunResult.outOfFuel
        apply ih
        have hlt := length_filter_lt_of_witness
          (fun m => !(n.name :: completed).contains m.name)
          (fun m => !completed.contains m.name)
          (fun x hx => by
            simp only [Bool.not_eq_true', List.contains_cons,
              Bool.or_eq_false_iff] at hx ⊢
            exact hx.2)
          n nodes hmem hnc
          (by simp [List.contains_cons])
        omega
      | err =>
        show ¬ RunResult.failedR = RunResult.outOfFuel
        decide
      | interact =>
        show ¬ RunResult.suspendedR = RunResult.outOfFuel
        decide

/-- C7: for every workflow definition whose workers terminate (worker
behaviour is a total function), `arunGeneric` terminates — it reaches
`COMPLETED` or `FAILED` or the suspend signal and never exhausts the
scheduler's fuel bound; in particular the two example graphs complete
under normally-returning workers, and the reimbursement graph suspends
when `execute_payment` raises its interaction. -/
theorem arun_terminates (behavior : String → WOutcome)
    (nodes : List WorkerNode) :
    (arunGeneric behavior nodes = RunResult.completedR ∨
     arunGeneric behavior nodes = RunResult.failedR ∨
     arunGeneric behavior nodes = RunResult.suspendedR) ∧
    arunGeneric (fun _ => WOutcome.ok) codeAssistantNodes =
      RunResult.completedR ∧
    arunGeneric (fun _ => WOutcome.ok) reimbursementNodes =
      RunResult.completedR ∧
    arunGeneric (fun w => if w = "execute_payment" then WOutcome.interact
      else WOutcome.ok) reimbursementNodes = RunResult.suspendedR := by
  refine ⟨?_, by decide, by decide, by decide⟩
  have hne := schedLoop_ne_outOfFuel behavior nodes nodes.length []
    (by simp)
  unfold arunGeneric at *
  cases h : schedLoop behavior nodes nodes.length [] with
  | completedR => exact Or.inl rfl
  | failedR => exact Or.inr (Or.inl rfl)
  | suspendedR => exact Or.inr (Or.inr rfl)
  | outOfFuel => exact absurd h hne

end Bridgic
